import Mathlib

/-!
# Verification of `underscore_cpp` (`ffffff.h`)

Shallow embedding of the functional-combinator toolkit in `ffffff.h`.
Containers are modelled as `List α` (an ordered, back-pushable,
default-constructible container, i.e. the `std::vector`-like case: it satisfies
`tmf::BackPushable`, so `PushPolicy` selects the `push_back` branch, and its
element types are modelled with an `Inhabited` instance standing for
`tmf::DefaultConstructible`).  Callables with results convertible to `bool`
are modelled as `α → Bool`; value-transforming callables as `α → β`.

Effectful zero-argument callables (for `Once`) are modelled as state
transformers `σ → Except ε α × σ`: the `σ` component records side effects
(e.g. an invocation counter) and `Except` models C++ exception propagation —
`f w = (.error e, w2)` means the call performed the side effects recorded in
`w2` and then threw `e`.

Where a C++ loop appears twice in the source (`Map`'s inline loop versus
`MapExecution`, `Filter`'s inline loop versus `PushExecution`), we keep two
separate Lean definitions mirroring the two separate pieces of code, and prove
them equal where the spec claims instantiation equality.

For frame (non-mutation) properties, a second state-threaded rendering of each
loop is given (`...St` definitions) in which the input container is part of
the mutable state and every read goes through it by index, exactly as the
iterator-based C++ loops read `*it_t` / range elements; the loop bodies write
only to the result object, which is what the frame theorems then establish.
-/

namespace fff

/-- `std::not_fn(func)`: the callable whose result is the logical negation of
`func`'s result (`Reject` passes this to `Filter`). -/
def notFn (p : α → Bool) : α → Bool := fun x => !(p x)

/-- `PreallocCont::operator()(cont, func)`: builds
`C<std::invoke_result_t<FuncObj,T>>(cont.size())`, i.e. a container of the
result type with `cont.size()` default-constructed elements.  The callable is
used only for its result type, hence the unused argument. -/
def PreallocCont.call [Inhabited β] (cont : List α) (_func : α → β) : List β :=
  List.replicate cont.length default

/-- `NewCont::operator()(cont, funcObj)`: builds `Cont()`, a fresh empty
container of the same container type. -/
def NewCont.call (_cont : List α) : List α := []

/-- The while-loop of `MapExecution::operator()`: lock-step iterators
`it_t`/`it_u`, assigning `*it_u = func(*it_t)` until `it_t == t_cont.end()`.
The second pattern (output exhausted while input remains) is unreachable in
every use in the source (output is preallocated to the input's length); in C++
it would dereference `end()`, so the equation chosen for it is arbitrary. -/
def MapExecution.loop (func : α → β) : List α → List β → List β
  | [], u_rest => u_rest
  | _ :: _, [] => []
  | t :: ts, _ :: us => func t :: MapExecution.loop func ts us

/-- `MapExecution::operator()(u_cont, t_cont, func)`. -/
def MapExecution.call (u_cont : List β) (t_cont : List α) (func : α → β) : List β :=
  MapExecution.loop func t_cont u_cont

/-- The range-for of `PushExecution::operator()`: for each `t` in `var_cont`,
if `func(t)` then `PushPolicy()(res_cont, t)`; on a back-pushable container
`PushPolicy` is `push_back`, i.e. append at the end. -/
def PushExecution.loop (func : α → Bool) (res_cont : List α) : List α → List α
  | [] => res_cont
  | t :: ts =>
      PushExecution.loop func (if func t then res_cont ++ [t] else res_cont) ts

/-- `PushExecution::operator()(res_cont, var_cont, func)`. -/
def PushExecution.call (res_cont var_cont : List α) (func : α → Bool) : List α :=
  PushExecution.loop func res_cont var_cont

/-- `Bloop<PreallocCont, MapExecution>::operator()(cont, func)` (the source's
`BloopMap`): `ret := PreallocCont()(cont, func); MapExecution()(ret, cont,
func); return ret`. -/
def BloopMap.call [Inhabited β] (cont : List α) (func : α → β) : List β :=
  MapExecution.call (PreallocCont.call cont func) cont func

/-- `Bloop<NewCont, PushExecution>::operator()(cont, func)` (the source's
`BloopFilter`): `ret := NewCont()(cont, func); PushExecution()(ret, cont,
func); return ret`. -/
def BloopFilter.call (cont : List α) (func : α → Bool) : List α :=
  PushExecution.call (NewCont.call cont) cont func

/-- The while-loop written inline in `Map::operator()` (lines 367–375):
textually a separate copy of `MapExecution`'s loop, so it gets its own
definition here. -/
def Map.loop (func : α → β) : List α → List β → List β
  | [], u_rest => u_rest
  | _ :: _, [] => []
  | t :: ts, _ :: us => func t :: Map.loop func ts us

/-- `Map::operator()(cont, func)`: `ret := PreallocCont()(cont, func)`, then
the inline lock-step assignment loop, then `return ret`. -/
def Map.call [Inhabited β] (cont : List α) (func : α → β) : List β :=
  Map.loop func cont (PreallocCont.call cont func)

/-- The range-for written inline in `Filter::operator()` (lines 390–394) with
`Filter::PushPolicy` (a separate copy of `PushExecution::PushPolicy`); again a
textually separate loop, so a separate definition. -/
def Filter.loop (func : α → Bool) (res : List α) : List α → List α
  | [] => res
  | v :: vs => Filter.loop func (if func v then res ++ [v] else res) vs

/-- `Filter::operator()(cont, func)`: `ret := NewCont()(cont, copy)`, then the
push loop, then `return ret`. -/
def Filter.call (cont : List α) (func : α → Bool) : List α :=
  Filter.loop func (NewCont.call cont) cont

/-- `Reject::operator()(cont, func)`: `return Filter()(cont, std::not_fn(func))`. -/
def Reject.call (cont : List α) (func : α → Bool) : List α :=
  Filter.call cont (notFn func)

/-- `LogicMake<func_ret, ret>::operator()(cont, func)`: scan `cont`; on the
first element `v` with `bool(func(v)) == func_ret` return `ret`; if the scan
finishes, return `!ret`. -/
def LogicMake.call (funcRet ret : Bool) (func : α → Bool) : List α → Bool
  | [] => !ret
  | v :: vs => if func v = funcRet then ret else LogicMake.call funcRet ret func vs

/-- `Some = LogicMake<true, true>`. -/
def Some.call (cont : List α) (func : α → Bool) : Bool :=
  LogicMake.call true true func cont

/-- `Every = LogicMake<false, false>`. -/
def Every.call (cont : List α) (func : α → Bool) : Bool :=
  LogicMake.call false false func cont

/-- `None = LogicMake<true, false>`. -/
def None.call (cont : List α) (func : α → Bool) : Bool :=
  LogicMake.call true false func cont

/-- The traversal of `std::ranges::for_each(cont, func)` inside
`Each::operator()`, where `func` takes the element by non-const reference;
`func`'s effect on an element is modelled as `func : α → α`. -/
def Each.loop (func : α → α) : List α → List α
  | [] => []
  | t :: ts => func t :: Each.loop func ts

/-- `Each::operator()(cont, func)`: return type is `void`.  The result is
modelled as the pair (returned value, container after the call): the first
component is the C++ `void` return (`Unit`), the second is the caller's
container after the in-place mutation. -/
def Each.call (cont : List α) (func : α → α) : Unit × List α :=
  ((), Each.loop func cont)

/-! ## State-threaded renderings of the read-only traversals

Each `...St` definition re-renders the corresponding C++ loop with the input
container threaded through the loop state: every read of `*it_t` (resp. the
range element) is a read `cont.getD i default` of the threaded container, and
the loop body updates only the result component, exactly as the loop bodies in
the source write only to `ret`/`res_cont`/the return slot.  The fuel argument
`k` counts the remaining iterations (`cont.length` at entry, as the iterator
starts at `begin()`). -/

/-- State-threaded rendering of `Map::operator()`'s while-loop: state is
(input container, output container); iteration `i` executes
`*it_u = func(*it_t)`, i.e. writes slot `i` of the output. -/
def MapExecution.loopSt [Inhabited α] (func : α → β) :
    Nat → Nat → List α × List β → List α × List β
  | 0, _, s => s
  | k + 1, i, (cont, out) =>
      MapExecution.loopSt func k (i + 1) (cont, out.set i (func (cont.getD i default)))

/-- State-threaded `Map::operator()(cont, func)`. -/
def Map.callSt [Inhabited α] [Inhabited β] (cont : List α) (func : α → β) :
    List α × List β :=
  MapExecution.loopSt func cont.length 0 (cont, PreallocCont.call cont func)

/-- State-threaded rendering of `Filter::operator()`'s range-for: state is
(input container, result container); iteration `i` tests `func` on element `i`
and push_backs it on success. -/
def PushExecution.loopSt [Inhabited α] (func : α → Bool) :
    Nat → Nat → List α × List α → List α × List α
  | 0, _, s => s
  | k + 1, i, (cont, res) =>
      PushExecution.loopSt func k (i + 1)
        (cont, if func (cont.getD i default) then res ++ [cont.getD i default] else res)

/-- State-threaded `Filter::operator()(cont, func)`. -/
def Filter.callSt [Inhabited α] (cont : List α) (func : α → Bool) :
    List α × List α :=
  PushExecution.loopSt func cont.length 0 (cont, NewCont.call cont)

/-- State-threaded `Reject::operator()(cont, func)` =
`Filter()(cont, std::not_fn(func))`. -/
def Reject.callSt [Inhabited α] (cont : List α) (func : α → Bool) :
    List α × List α :=
  Filter.callSt cont (notFn func)

/-- State-threaded rendering of `LogicMake`'s scan: returns (container after
the call, boolean result); the early `return ret` exits the loop. -/
def LogicMake.loopSt [Inhabited α] (funcRet ret : Bool) (func : α → Bool) :
    Nat → Nat → List α → List α × Bool
  | 0, _, cont => (cont, !ret)
  | k + 1, i, cont =>
      if func (cont.getD i default) = funcRet then (cont, ret)
      else LogicMake.loopSt funcRet ret func k (i + 1) cont

/-- State-threaded `Some::operator()`. -/
def Some.callSt [Inhabited α] (cont : List α) (func : α → Bool) : List α × Bool :=
  LogicMake.loopSt true true func cont.length 0 cont

/-- State-threaded `Every::operator()`. -/
def Every.callSt [Inhabited α] (cont : List α) (func : α → Bool) : List α × Bool :=
  LogicMake.loopSt false false func cont.length 0 cont

/-- State-threaded `None::operator()`. -/
def None.callSt [Inhabited α] (cont : List α) (func : α → Bool) : List α × Bool :=
  LogicMake.loopSt true false func cont.length 0 cont

/-! ## `Once` (single-evaluation memoizer) -/

/-- The mutable state of a `Once_nv<Fn>` object: `mutable bool flag` (set to
`false` by both constructors) and `mutable std::invoke_result_t<Fn> memo`
(default-initialized at construction, modelled by `default`). -/
structure Once_nv (α : Type) where
  flag : Bool
  memo : α
  deriving DecidableEq, Repr

/-- The state a `Once_nv` constructor produces: `flag(false)`, `memo`
default-initialized. -/
def Once_nv.fresh [Inhabited α] : Once_nv α := ⟨false, default⟩

/-- `Once_nv::operator()()`:

    if (flag) { return memo; }
    flag = true;
    return memo = f();

The wrapped callable is `f : σ → Except ε α × σ`.  Result: (what the call
returns or throws, the `Once_nv` state after the call, the world after the
call).  Note the source sets `flag = true` *before* evaluating `f()`; if `f()`
throws, the assignment `memo = f()` never completes, so `memo` keeps its old
value while `flag` is already `true`. -/
def Once_nv.call (f : σ → Except ε α × σ) (st : Once_nv α) (w : σ) :
    Except ε α × Once_nv α × σ :=
  if st.flag then
    (Except.ok st.memo, st, w)
  else
    match f w with
    | (Except.ok v, w2) => (Except.ok v, ⟨true, v⟩, w2)
    | (Except.error e, w2) => (Except.error e, ⟨true, st.memo⟩, w2)

/-- The mutable state of a `Once_v<Fn>` object: just `mutable bool flag`. -/
structure Once_v where
  flag : Bool
  deriving DecidableEq, Repr

/-- `Once_v::operator()()`:

    if (flag) { return; }
    flag = true;
    f();

Again `flag = true` executes before `f()` is invoked. -/
def Once_v.call (f : σ → Except ε Unit × σ) (st : Once_v) (w : σ) :
    Except ε Unit × Once_v × σ :=
  if st.flag then
    (Except.ok (), st, w)
  else
    match f w with
    | (Except.ok _, w2) => (Except.ok (), ⟨true⟩, w2)
    | (Except.error e, w2) => (Except.error e, ⟨true⟩, w2)

/-! ## `Fconcat` (ordered composition) -/

/-- One candidate callable of an `Fconcat`, over a fixed argument type:
`accepts` is the compile-time fact `std::invocable<Fn, Args...>` for that
argument type, and `fn` its behaviour when invoked. -/
structure OverloadFn (α β : Type) where
  accepts : Bool
  fn : α → β

/-- An `Fconcat<Fn_1, Fn_2>` object: its two stored callables `f_1`, `f_2`. -/
structure Fconcat (α β : Type) where
  f_1 : OverloadFn α β
  f_2 : OverloadFn α β

/-- `Fconcat::operator()(args...)` overload resolution: the first overload
requires `std::invocable<Fn_1, Args...>` and invokes `f_1`; the second
requires `not std::invocable<Fn_1, Args...> and std::invocable<Fn_2, Args...>`
and invokes `f_2`; when neither holds the call is ill-formed (`none`). -/
def Fconcat.call (g : Fconcat α β) (x : α) : Option β :=
  if g.f_1.accepts then some (g.f_1.fn x)
  else if g.f_2.accepts then some (g.f_2.fn x)
  else none

/-! ## Helper lemmas -/

/-- The inline while-loop of `Map::operator()` is the same loop as
`MapExecution::operator()`'s. -/
theorem Map.loop_eq_mapExecution_loop (func : α → β) (t : List α) (u : List β) :
    Map.loop func t u = MapExecution.loop func t u := by
  induction t generalizing u with
  | nil => cases u <;> rfl
  | cons x xs ih =>
      cases u with
      | nil => rfl
      | cons y ys => simp only [Map.loop, MapExecution.loop, ih]

/-- The inline push loop of `Filter::operator()` is the same loop as
`PushExecution::operator()`'s. -/
theorem Filter.loop_eq_pushExecution_loop (func : α → Bool) (l : List α) :
    ∀ res : List α, Filter.loop func res l = PushExecution.loop func res l := by
  induction l with
  | nil => intro res; rfl
  | cons v vs ih => intro res; simp only [Filter.loop, PushExecution.loop, ih]

/-- Running `Map`'s loop over the input with an output of the same length
overwrites every slot: the result is the pointwise image. -/
theorem Map.loop_full (func : α → β) (cont : List α) :
    ∀ u : List β, u.length = cont.length → Map.loop func cont u = cont.map func := by
  induction cont with
  | nil =>
      intro u h
      cases u with
      | nil => rfl
      | cons y ys => simp at h
  | cons x xs ih =>
      intro u h
      cases u with
      | nil => simp at h
      | cons y ys =>
          simp only [Map.loop, List.map]
          rw [ih ys (by simpa using h)]

/-- `Map::operator()` computes the pointwise image of the input. -/
theorem Map.call_eq_map [Inhabited β] (cont : List α) (func : α → β) :
    Map.call cont func = cont.map func := by
  unfold Map.call PreallocCont.call
  exact Map.loop_full func cont _ (List.length_replicate _ _)

/-- `Filter`'s push loop appends exactly the matching elements, in order. -/
theorem Filter.loop_append (func : α → Bool) (l : List α) :
    ∀ res : List α, Filter.loop func res l = res ++ l.filter func := by
  induction l with
  | nil => intro res; simp [Filter.loop]
  | cons v vs ih =>
      intro res
      by_cases h : func v = true
      · simp [Filter.loop, h, ih, List.filter_cons]
      · simp [Filter.loop, h, ih, List.filter_cons]

/-- `Filter::operator()` computes `List.filter`. -/
theorem Filter.call_eq_filter (cont : List α) (func : α → Bool) :
    Filter.call cont func = cont.filter func := by
  unfold Filter.call NewCont.call
  rw [Filter.loop_append]
  simp

/-- `Some`'s scan is `List.any`. -/
theorem Some.call_eq_any (cont : List α) (func : α → Bool) :
    Some.call cont func = cont.any func := by
  unfold Some.call
  induction cont with
  | nil => rfl
  | cons v vs ih =>
      by_cases h : func v = true <;> simp [LogicMake.call, List.any_cons, h, ih]

/-- `Every`'s scan is `List.all`. -/
theorem Every.call_eq_all (cont : List α) (func : α → Bool) :
    Every.call cont func = cont.all func := by
  unfold Every.call
  induction cont with
  | nil => rfl
  | cons v vs ih =>
      by_cases h : func v = true <;> simp [LogicMake.call, List.all_cons, h, ih]

/-- `None`'s scan is the negation of `Some`'s. -/
theorem None.call_eq_not_some (cont : List α) (func : α → Bool) :
    None.call cont func = !Some.call cont func := by
  unfold None.call Some.call
  induction cont with
  | nil => rfl
  | cons v vs ih =>
      by_cases h : func v = true <;> simp [LogicMake.call, h, ih]

/-- `Each`'s traversal is the pointwise image. -/
theorem Each.loop_eq_map (func : α → α) (cont : List α) :
    Each.loop func cont = cont.map func := by
  induction cont with
  | nil => rfl
  | cons t ts ih => simp only [Each.loop, List.map, ih]

/-- The map loop writes only to the output component: the input container
passes through unchanged. -/
theorem MapExecution.mapLoopSt_fst [Inhabited α] (func : α → β) :
    ∀ (k i : Nat) (cont : List α) (out : List β),
      (MapExecution.loopSt func k i (cont, out)).1 = cont := by
  intro k
  induction k with
  | zero => intro i cont out; rfl
  | succ k ih => intro i cont out; exact ih (i + 1) cont _

/-- The push loop writes only to the result component: the input container
passes through unchanged. -/
theorem PushExecution.pushLoopSt_fst [Inhabited α] (func : α → Bool) :
    ∀ (k i : Nat) (cont res : List α),
      (PushExecution.loopSt func k i (cont, res)).1 = cont := by
  intro k
  induction k with
  | zero => intro i cont res; rfl
  | succ k ih => intro i cont res; exact ih (i + 1) cont _

/-- The quantifier scan only reads the container: it passes through
unchanged, whether or not the scan exits early. -/
theorem LogicMake.logicLoopSt_fst [Inhabited α] (funcRet ret : Bool) (func : α → Bool) :
    ∀ (k i : Nat) (cont : List α),
      (LogicMake.loopSt funcRet ret func k i cont).1 = cont := by
  intro k
  induction k with
  | zero => intro i cont; rfl
  | succ k ih =>
      intro i cont
      unfold LogicMake.loopSt
      split
      · rfl
      · exact ih (i + 1) cont

/-! ## Claim theorems -/

/-- C1 (counterexample): the claim says a throwing first invocation leaves the
wrapper's evaluated flag unset so that the next invocation invokes `fn` again.
It is false: with the wrapped callable that bumps a counter and throws
(`fun n => (error "boom", n + 1)`), the failed first call from the fresh state
leaves `flag = true`, and the next invocation does not invoke `fn` at all —
the counter stays at `1` and the call returns `ok 0`, the never-assigned
default-initialized memo, instead of retrying. -/
theorem once_error_retry_cex :
    (Once_nv.call (fun n : Nat => ((Except.error "boom" : Except String Nat), n + 1))
        Once_nv.fresh 0).2.1.flag = true ∧
    Once_nv.call (fun n : Nat => ((Except.error "boom" : Except String Nat), n + 1))
        ⟨true, 0⟩ 1 = (Except.ok 0, ⟨true, 0⟩, 1) := by
  constructor <;> rfl

/-- C1 (amended): any exception raised by `fn` during the first (uncached)
call propagates to the caller, but `Once_nv::operator()` executes
`flag = true;` *before* `return memo = f();`, so the evaluated flag is already
set when `fn` throws; the next invocation therefore does not invoke `fn`
again and returns the stale default-initialized memo — at-most-once-attempted
semantics, not at-most-once-on-success.  `Once_v::operator()` likewise sets
the flag before invoking `fn`, so a throwing first call is never retried. -/
theorem once_error_not_retried (f : σ → Except ε α × σ) (m : α) (w w2 : σ) (e : ε)
    (h : f w = (Except.error e, w2)) :
    Once_nv.call f ⟨false, m⟩ w = (Except.error e, ⟨true, m⟩, w2) ∧
    (∀ w3, Once_nv.call f ⟨true, m⟩ w3 = (Except.ok m, ⟨true, m⟩, w3)) ∧
    ∀ (g : σ → Except ε Unit × σ) (w4 w5 : σ) (e2 : ε), g w4 = (Except.error e2, w5) →
      Once_v.call g ⟨false⟩ w4 = (Except.error e2, ⟨true⟩, w5) ∧
      ∀ w6, Once_v.call g ⟨true⟩ w6 = (Except.ok (), ⟨true⟩, w6) := by
  refine ⟨?_, ?_, ?_⟩
  · simp [Once_nv.call, h]
  · intro w3; simp [Once_nv.call]
  · intro g w4 w5 e2 hg
    exact ⟨by simp [Once_v.call, hg], fun w6 => by simp [Once_v.call]⟩

/-- Witness for C1's amended theorem at a concrete throwing callable. -/
theorem once_error_not_retried_witness :
    Once_nv.call (fun n : Nat => ((Except.error "boom" : Except String Nat), n + 1))
        ⟨false, 0⟩ 0 = (Except.error "boom", ⟨true, 0⟩, 1) ∧
    Once_v.call (fun n : Nat => ((Except.error "boom" : Except String Unit), n + 1))
        ⟨false⟩ 0 = (Except.error "boom", ⟨true⟩, 1) :=
  ⟨(once_error_not_retried
      (fun n : Nat => ((Except.error "boom" : Except String Nat), n + 1)) 0 0 1 "boom" rfl).1,
   ((once_error_not_retried
      (fun n : Nat => ((Except.error "boom" : Except String Nat), n + 1)) 0 0 1 "boom" rfl).2.2
      (fun n : Nat => ((Except.error "boom" : Except String Unit), n + 1)) 0 1 "boom" rfl).1⟩

/-- C2 (counterexample): the claim says `each(c, f)` returns a container
referring to the same storage as `c`.  It is false: `Each::operator()` has
return type `void`, so no function of the returned value can recover the
container — here no `g` can map the (unit) return of `each` back to both
concrete inputs' containers. -/
theorem each_returns_container_cex :
    ¬ ∃ g : Unit → List Nat,
        g (Each.call ([] : List Nat) (fun n => n)).1
            = (Each.call ([] : List Nat) (fun n => n)).2 ∧
        g (Each.call ([0] : List Nat) (fun n => n)).1
            = (Each.call ([0] : List Nat) (fun n => n)).2 := by
  rintro ⟨g, h1, h2⟩
  simp only [Each.call, Each.loop] at h1 h2
  rw [h1] at h2
  exact List.noConfusion h2

/-- C2 (amended): `each(c, f)` mutates `c` in place — afterwards `c[i]`
equals the post-`f` value (the result of applying `f` at that position) for
every index `i`, with the length unchanged — but its return type is `void`
(`Unit`): the mutated container is observed through `c` itself, not through a
returned value. -/
theorem each_mutates_in_place [Inhabited α] (c : List α) (f : α → α) :
    (Each.call c f).1 = () ∧
    (Each.call c f).2.length = c.length ∧
    ∀ i : Nat, i < c.length →
      (Each.call c f).2.getD i default = f (c.getD i default) := by
  refine ⟨rfl, ?_, ?_⟩
  · simp [Each.call, Each.loop_eq_map]
  · intro i hi
    simp only [Each.call, Each.loop_eq_map]
    rw [List.getD_eq_getElem?_getD, List.getD_eq_getElem?_getD, List.getElem?_map,
      List.getElem?_eq_getElem hi]
    rfl

/-- Witness for C2's amended theorem at a concrete container and callable. -/
theorem each_mutates_in_place_witness :
    (Each.call [1, 2] (fun n : Nat => n + 1)).2.getD 0 default
      = (fun n : Nat => n + 1) (([1, 2] : List Nat).getD 0 default) :=
  (each_mutates_in_place [1, 2] (fun n : Nat => n + 1)).2.2 0 (by decide)

/-- C3: the exported traversal algorithms coincide with the generic executor
instantiations: `map(c, f) = Bloop<PreallocCont, MapExecution>(c, f)` and
`filter(c, p) = Bloop<NewCont, PushExecution>(c, p)` — the inline loops in
`Map::operator()` and `Filter::operator()` are behaviorally exactly the
corresponding policy instantiations of the `Bloop` skeleton. -/
theorem map_filter_are_bloop_instances [Inhabited β] (c : List α) (f : α → β)
    (p : α → Bool) :
    Map.call c f = BloopMap.call c f ∧ Filter.call c p = BloopFilter.call c p := by
  constructor
  · unfold Map.call BloopMap.call MapExecution.call
    exact Map.loop_eq_mapExecution_loop f c _
  · unfold Filter.call BloopFilter.call PushExecution.call
    exact Filter.loop_eq_pushExecution_loop p c _

/-- C4: `map(c, f)` returns a new container of the same length as `c`, and at
every index `i` its element is `f(c[i])`. -/
theorem map_length_pointwise [Inhabited α] [Inhabited β] (c : List α) (f : α → β) :
    (Map.call c f).length = c.length ∧
    ∀ i : Nat, i < c.length →
      (Map.call c f).getD i default = f (c.getD i default) := by
  rw [Map.call_eq_map]
  refine ⟨List.length_map c f, ?_⟩
  intro i hi
  rw [List.getD_eq_getElem?_getD, List.getD_eq_getElem?_getD, List.getElem?_map,
    List.getElem?_eq_getElem hi]
  rfl

/-- Witness for C4 at a concrete container, callable and index. -/
theorem map_length_pointwise_witness :
    (Map.call [1, 2, 3] (fun n : Nat => n * 2)).getD 1 default
      = (fun n : Nat => n * 2) (([1, 2, 3] : List Nat).getD 1 default) :=
  (map_length_pointwise [1, 2, 3] (fun n : Nat => n * 2)).2 1 (by decide)

/-- C5: every element of `filter(c, p)` satisfies `p`; `filter(c, p)` is a
sublist of `c` (same relative order, `List` preserves insertion order); and no
element of `c` failing `p` appears in `filter(c, p)`. -/
theorem filter_subsequence (c : List α) (p : α → Bool) :
    (∀ x, x ∈ Filter.call c p → p x = true) ∧
    (Filter.call c p).Sublist c ∧
    ∀ x, x ∈ c → p x = false → x ∉ Filter.call c p := by
  rw [Filter.call_eq_filter]
  refine ⟨?_, List.filter_sublist c, ?_⟩
  · intro x hx; exact List.of_mem_filter hx
  · intro x _ hpx hmem
    have := List.of_mem_filter hmem
    rw [hpx] at this
    exact Bool.false_ne_true this

/-- Witness for C5 at a concrete container and predicate. -/
theorem filter_subsequence_witness :
    (1 : Nat) ∉ Filter.call [1, 2] (fun n : Nat => n % 2 == 0) :=
  (filter_subsequence [1, 2] (fun n : Nat => n % 2 == 0)).2.2 1 (by decide) (by decide)

/-- C6: `some(c, p)` is true iff some element of `c` satisfies `p`;
`every(c, p)` is true iff all do; `none(c, p)` is the negation of
`some(c, p)`; and on the empty container `some` is false, `every` is true and
`none` is true. -/
theorem quantifier_correctness (c : List α) (p : α → Bool) :
    (Some.call c p = true ↔ ∃ x, x ∈ c ∧ p x = true) ∧
    (Every.call c p = true ↔ ∀ x, x ∈ c → p x = true) ∧
    None.call c p = !Some.call c p ∧
    Some.call ([] : List α) p = false ∧
    Every.call ([] : List α) p = true ∧
    None.call ([] : List α) p = true := by
  refine ⟨?_, ?_, None.call_eq_not_some c p, rfl, rfl, rfl⟩
  · rw [Some.call_eq_any]; exact List.any_eq_true
  · rw [Every.call_eq_all]; exact List.all_eq_true

/-- Witness for C6 at a concrete container and predicate. -/
theorem quantifier_correctness_witness :
    Some.call [1, 2] (fun n : Nat => n % 2 == 0) = true :=
  (quantifier_correctness [1, 2] (fun n : Nat => n % 2 == 0)).1.mpr
    ⟨2, by decide, by decide⟩

/-- C7: when both stored callables of an `Fconcat` accept the argument type,
the call dispatches to `f_1` — `g(x) = f_1(x)` — and `f_2` is never invoked:
the result is the same whatever callable sits in the second slot. -/
theorem fconcat_first_match (g : Fconcat α β) (x : α)
    (h1 : g.f_1.accepts = true) (_h2 : g.f_2.accepts = true) :
    Fconcat.call g x = some (g.f_1.fn x) ∧
    ∀ f2 : OverloadFn α β, Fconcat.call ⟨g.f_1, f2⟩ x = some (g.f_1.fn x) := by
  constructor
  · simp [Fconcat.call, h1]
  · intro f2; simp [Fconcat.call, h1]

/-- Witness for C7 at two concrete callables that both accept `Nat`. -/
theorem fconcat_first_match_witness :
    Fconcat.call ⟨⟨true, fun n : Nat => n + 1⟩, ⟨true, fun n : Nat => n * 10⟩⟩ 5
      = some 6 :=
  (fconcat_first_match
    ⟨⟨true, fun n : Nat => n + 1⟩, ⟨true, fun n : Nat => n * 10⟩⟩ 5 rfl rfl).1

/-- C8: for a wrapped callable with a side effect (world transformer `f`),
the first call from the fresh state invokes `f` exactly once (the world
advances by exactly one application of `f`), and every later call — in
particular the second and third — returns the identical cached value and
leaves the world untouched, so three calls perform the side effect once and
return the same value three times. -/
theorem once_memoizes (f : σ → Except ε α × σ) (m v : α) (w w2 : σ)
    (h : f w = (Except.ok v, w2)) :
    Once_nv.call f ⟨false, m⟩ w = (Except.ok v, ⟨true, v⟩, w2) ∧
    ∀ w3, Once_nv.call f ⟨true, v⟩ w3 = (Except.ok v, ⟨true, v⟩, w3) := by
  constructor
  · simp [Once_nv.call, h]
  · intro w3; simp [Once_nv.call]

/-- Witness for C8: the counter callable `fun n => (ok 42, n + 1)` called
three times through the wrapper bumps the counter exactly once (0 to 1) and
returns `ok 42` all three times. -/
theorem once_memoizes_witness :
    Once_nv.call (fun n : Nat => ((Except.ok 42 : Except String Nat), n + 1))
        ⟨false, 0⟩ 0 = (Except.ok 42, ⟨true, 42⟩, 1) ∧
    Once_nv.call (fun n : Nat => ((Except.ok 42 : Except String Nat), n + 1))
        ⟨true, 42⟩ 1 = (Except.ok 42, ⟨true, 42⟩, 1) :=
  ⟨(once_memoizes (fun n : Nat => ((Except.ok 42 : Except String Nat), n + 1))
      0 42 0 1 rfl).1,
   (once_memoizes (fun n : Nat => ((Except.ok 42 : Except String Nat), n + 1))
      0 42 0 1 rfl).2 1⟩

/-- C9: `reject(c, p)` equals `filter` applied with the logical negation of
`p` (`std::not_fn`), and `filter(c, p) ++ reject(c, p)` is a permutation of
`c`: the two results partition `c` as multisets. -/
theorem reject_complement (c : List α) (p : α → Bool) :
    Reject.call c p = Filter.call c (fun x => !(p x)) ∧
    List.Perm (Filter.call c p ++ Reject.call c p) c := by
  constructor
  · rfl
  · rw [Filter.call_eq_filter, Reject.call, Filter.call_eq_filter]
    exact List.filter_append_perm p c

/-- C10: `map`, `filter`, `reject`, `some`, `every` and `none` leave the input
container unchanged — in the state-threaded rendering of each loop (where the
input container is part of the mutable state and every iteration reads it by
position) the container after the call equals the container before it. -/
theorem traversals_preserve_input [Inhabited α] [Inhabited β] (c : List α)
    (f : α → β) (p : α → Bool) :
    (Map.callSt c f).1 = c ∧
    (Filter.callSt c p).1 = c ∧
    (Reject.callSt c p).1 = c ∧
    (Some.callSt c p).1 = c ∧
    (Every.callSt c p).1 = c ∧
    (None.callSt c p).1 = c :=
  ⟨MapExecution.mapLoopSt_fst f c.length 0 c _,
   PushExecution.pushLoopSt_fst p c.length 0 c _,
   PushExecution.pushLoopSt_fst (notFn p) c.length 0 c _,
   LogicMake.logicLoopSt_fst true true p c.length 0 c,
   LogicMake.logicLoopSt_fst false false p c.length 0 c,
   LogicMake.logicLoopSt_fst true false p c.length 0 c⟩

end fff
